import Mathlib

/-!
Verification of `cpp/src/fil/common.cuh` (FIL: forest inference library).

The definitions below are a shallow embedding of the storage accessors,
the shared-memory sizing helper and the kernel-variant dispatch chain of
`common.cuh`.  C++ `int` arithmetic is modelled on `Int` with an explicit
two's-complement wrap (`wrap32`), `size_t` arithmetic with `wrap64`;
pointers into device arrays are modelled as total functions from integer
offsets to node values; the fatal `ASSERT` macro is modelled as the
`.error` branch of `Except`.
-/

/-- Two's-complement wrap-around of a mathematical integer into the range
of a signed 32-bit `int`, i.e. `[-2^31, 2^31)`. -/
def wrap32 (n : Int) : Int := (n + 2 ^ 31) % 2 ^ 32 - 2 ^ 31

/-- Wrap-around of a mathematical integer into the range of a 64-bit
unsigned `size_t`, i.e. `[0, 2^64)`. -/
def wrap64 (n : Int) : Int := n % 2 ^ 64

/-- `tree_num_nodes(depth) = (1 << (depth + 1)) - 1` from common.cuh,
in 32-bit `int` arithmetic (the shift and the decrement both wrap). -/
def tree_num_nodes (depth : Nat) : Int :=
  wrap32 (wrap32 (2 ^ (depth + 1)) - 1)

/-- `forest_num_nodes(num_trees, depth) = num_trees * tree_num_nodes(depth)`
from common.cuh, in 32-bit `int` arithmetic. -/
def forest_num_nodes (num_trees : Int) (depth : Nat) : Int :=
  wrap32 (num_trees * tree_num_nodes depth)

/-- `dense_tree` from common.cuh.  The node pointer `nodes_` is modelled
as a total function from (element) offsets to nodes; the node type is a
parameter because addressing is independent of the node payload
(`dense_node` itself is declared in internal.cuh, outside this file). -/
structure dense_tree (node_t : Type) where
  nodes_ : Int → node_t
  node_pitch_ : Int

/-- `dense_tree::operator[]`: `nodes_[i * node_pitch_]`. -/
def dense_tree.get {node_t : Type} (t : dense_tree node_t) (i : Int) : node_t :=
  t.nodes_ (i * t.node_pitch_)

/-- `dense_storage` from common.cuh. -/
structure dense_storage (node_t : Type) where
  nodes_ : Int → node_t
  num_trees_ : Int
  tree_stride_ : Int
  node_pitch_ : Int

/-- `dense_storage::operator[]`: `dense_tree(nodes_ + i * tree_stride_,
node_pitch_)`; the pointer offset becomes function pre-composition. -/
def dense_storage.get {node_t : Type} (s : dense_storage node_t) (i : Int) :
    dense_tree node_t :=
  ⟨fun j => s.nodes_ (i * s.tree_stride_ + j), s.node_pitch_⟩

/-- `sparse_tree<node_t>` from common.cuh. -/
structure sparse_tree (node_t : Type) where
  nodes_ : Int → node_t

/-- `sparse_tree::operator[]`: `nodes_[i]`. -/
def sparse_tree.get {node_t : Type} (t : sparse_tree node_t) (i : Int) : node_t :=
  t.nodes_ i

/-- `sparse_storage<node_t>` from common.cuh; `trees_` is the root-offset
table. -/
structure sparse_storage (node_t : Type) where
  trees_ : Int → Int
  nodes_ : Int → node_t
  num_trees_ : Int

/-- `sparse_storage::operator[]`: `sparse_tree<node_t>(&nodes_[trees_[i]])`. -/
def sparse_storage.get {node_t : Type} (s : sparse_storage node_t) (i : Int) :
    sparse_tree node_t :=
  ⟨fun j => s.nodes_ (s.trees_ i + j)⟩

/-- Modelled from the spec: the fixed thread-block-width platform constant
`FIL_TPB` (declared in internal.cuh, outside this file; the spec calls it
"a fixed platform constant").  Its concrete platform value is 256; no
theorem below depends on the value beyond `1 ≤ FIL_TPB`. -/
def FIL_TPB : Int := 256

/-- Modelled from the spec: the leaf-aggregation algorithm identifiers of
`leaf_algo_t` (declared in fil.h, outside this file) that common.cuh
names: plain unary, grove-per-class (unresolved and its few/many-classes
resolutions) and categorical. -/
inductive leaf_algo_t where
  | FLOAT_UNARY_BINARY
  | GROVE_PER_CLASS
  | GROVE_PER_CLASS_FEW_CLASSES
  | GROVE_PER_CLASS_MANY_CLASSES
  | CATEGORICAL_LEAF
deriving DecidableEq, Repr

/-- `shmem_size_params` from common.cuh, with the C++ default member
initializers (`shm_sz = INT_MAX`). -/
structure shmem_size_params where
  num_classes : Int := 1
  leaf_algo : leaf_algo_t := .FLOAT_UNARY_BINARY
  num_cols : Int := 0
  predict_proba : Bool := false
  cols_in_shmem : Bool := true
  n_items : Int := 0
  max_shm : Int := 0
  blockdim_x : Int := 0
  shm_sz : Int := 2147483647
deriving DecidableEq, Repr

/-- `shmem_size_params::cols_shmem_size()`:
`cols_in_shmem ? sizeof(float) * num_cols * n_items : 0` in `size_t`
arithmetic — each `int` operand is converted to `size_t` and each product
is taken mod `2^64`, with `sizeof(float) = 4`. -/
def shmem_size_params.cols_shmem_size (p : shmem_size_params) : Int :=
  if p.cols_in_shmem then
    wrap64 (wrap64 (4 * wrap64 p.num_cols) * wrap64 p.n_items)
  else 0

/-- `predict_params` from common.cuh, extending `shmem_size_params`.  The
enum fields `algo`/`transform` are modelled as integer identifiers and the
device pointers `preds`/`data` as integer addresses, since dispatch never
inspects them. -/
structure predict_params extends shmem_size_params where
  algo : Int
  num_outputs : Int
  preds : Int
  data : Int
  num_rows : Nat
  transform : Int
  num_blocks : Int
deriving DecidableEq, Repr

/-- The kernel specialization invoked by `dispatch_final`: the three
compile-time template arguments `(cols_in_shmem, leaf_algo, n_items)`
together with the run-time `params` argument delivered to the kernel. -/
structure Invocation where
  cols_in_shmem : Bool
  leaf_algo : leaf_algo_t
  n_items : Int
  params : predict_params
deriving DecidableEq, Repr

/-- `dispatch_final<Func, storage, cols_in_shmem, leaf_algo, n_items>`:
invokes exactly one compiled specialization.  The `Func`/`storage_type`
template arguments and the variadic tail are elided: they are fixed by the
caller of the whole chain and never inspected by the dispatch logic. -/
def dispatch_final (cols_in_shmem : Bool) (leaf_algo : leaf_algo_t)
    (n_items : Int) (params : predict_params) : Invocation :=
  ⟨cols_in_shmem, leaf_algo, n_items, params⟩

/-- `dispatch_on_n_items`: `switch (params.n_items)` over 1..4; any other
value hits `ASSERT(false, "internal error: n_items > 4")`, modelled as
`.error`. -/
def dispatch_on_n_items (cols_in_shmem : Bool) (leaf_algo : leaf_algo_t)
    (params : predict_params) : Except String Invocation :=
  if params.n_items = 1 then .ok (dispatch_final cols_in_shmem leaf_algo 1 params)
  else if params.n_items = 2 then .ok (dispatch_final cols_in_shmem leaf_algo 2 params)
  else if params.n_items = 3 then .ok (dispatch_final cols_in_shmem leaf_algo 3 params)
  else if params.n_items = 4 then .ok (dispatch_final cols_in_shmem leaf_algo 4 params)
  else .error "internal error: n_items > 4"

/-- `dispatch_on_leaf_algo`: `switch (params.leaf_algo)`.  `params` is a
by-value copy, so the assignments to `params.leaf_algo` / `params.blockdim_x`
are modelled as shadowing `let` rebindings of the local copy; the `default`
case hits `ASSERT(false, "internal error: invalid leaf_algo")`. -/
def dispatch_on_leaf_algo (cols_in_shmem : Bool) (params : predict_params) :
    Except String Invocation :=
  match params.leaf_algo with
  | .FLOAT_UNARY_BINARY =>
      let params := { params with blockdim_x := FIL_TPB }
      dispatch_on_n_items cols_in_shmem .FLOAT_UNARY_BINARY params
  | .GROVE_PER_CLASS =>
      if params.num_classes > FIL_TPB then
        let params := { params with leaf_algo := .GROVE_PER_CLASS_MANY_CLASSES,
                                    blockdim_x := FIL_TPB }
        dispatch_on_n_items cols_in_shmem .GROVE_PER_CLASS_MANY_CLASSES params
      else
        let params := { params with leaf_algo := .GROVE_PER_CLASS_FEW_CLASSES,
                                    blockdim_x := FIL_TPB - FIL_TPB % params.num_classes }
        dispatch_on_n_items cols_in_shmem .GROVE_PER_CLASS_FEW_CLASSES params
  | .CATEGORICAL_LEAF =>
      let params := { params with blockdim_x := FIL_TPB }
      dispatch_on_n_items cols_in_shmem .CATEGORICAL_LEAF params
  | _ => .error "internal error: invalid leaf_algo"

/-- `dispatch_on_cols_in_shmem`: lifts the run-time `params.cols_in_shmem`
flag into the compile-time template argument. -/
def dispatch_on_cols_in_shmem (params : predict_params) :
    Except String Invocation :=
  if params.cols_in_shmem then dispatch_on_leaf_algo true params
  else dispatch_on_leaf_algo false params

/-- `dispatch_on_FIL_template_params`: entry point of the dispatch chain. -/
def dispatch_on_FIL_template_params (params : predict_params) :
    Except String Invocation :=
  dispatch_on_cols_in_shmem params

/-- The call `dispatch_on_FIL_template_params(params, args...)` as seen from
the call site: C++ passes `predict_params` by value, so the callee operates
on its own copy.  The pair is (the dispatch outcome, the caller's `params`
object after the call returns) — by-value semantics means the second
component is the caller's original object, untouched. -/
def dispatch_on_FIL_template_params_call (params : predict_params) :
    Except String Invocation × predict_params :=
  (dispatch_on_FIL_template_params params, params)

/-- The recognized `leaf_algo` values of `dispatch_on_leaf_algo`'s switch
(the ones with an explicit `case` label). -/
def leaf_algo_recognized (p : predict_params) : Prop :=
  p.leaf_algo = .FLOAT_UNARY_BINARY ∨ p.leaf_algo = .GROVE_PER_CLASS ∨
    p.leaf_algo = .CATEGORICAL_LEAF

/-- The `n_items` values with a `case` label in `dispatch_on_n_items`. -/
def n_items_valid (p : predict_params) : Prop :=
  p.n_items = 1 ∨ p.n_items = 2 ∨ p.n_items = 3 ∨ p.n_items = 4

instance (p : predict_params) : Decidable (leaf_algo_recognized p) := by
  unfold leaf_algo_recognized; infer_instance

instance (p : predict_params) : Decidable (n_items_valid p) := by
  unfold n_items_valid; infer_instance

/-- A concrete `predict_params` used to instantiate theorems below:
grove-per-class with more classes than `FIL_TPB`. -/
def pGroveMany : predict_params :=
  { num_classes := 300, leaf_algo := .GROVE_PER_CLASS, num_cols := 5,
    n_items := 2, algo := 0, num_outputs := 300, preds := 0, data := 0,
    num_rows := 1, transform := 0, num_blocks := 1 }

/-- A concrete `predict_params`: grove-per-class with 3 classes. -/
def pGroveFew : predict_params :=
  { num_classes := 3, leaf_algo := .GROVE_PER_CLASS, num_cols := 5,
    n_items := 1, algo := 0, num_outputs := 3, preds := 0, data := 0,
    num_rows := 1, transform := 0, num_blocks := 1 }

/-- A concrete `predict_params`: plain unary regression, n_items = 3. -/
def pUnary : predict_params :=
  { num_cols := 7, n_items := 3, algo := 0, num_outputs := 1, preds := 0,
    data := 0, num_rows := 1, transform := 0, num_blocks := 1 }

/-- The kernel specialization that the dispatcher reaches from
`pGroveMany`. -/
def invGroveMany : Invocation :=
  ⟨true, .GROVE_PER_CLASS_MANY_CLASSES, 2,
   { pGroveMany with leaf_algo := .GROVE_PER_CLASS_MANY_CLASSES,
                     blockdim_x := FIL_TPB }⟩

/-- The kernel specialization that the dispatcher reaches from
`pGroveFew`. -/
def invGroveFew : Invocation :=
  ⟨true, .GROVE_PER_CLASS_FEW_CLASSES, 1,
   { pGroveFew with leaf_algo := .GROVE_PER_CLASS_FEW_CLASSES,
                    blockdim_x := FIL_TPB - FIL_TPB % 3 }⟩

/-- Concrete `shmem_size_params` with column caching enabled. -/
def qCached : shmem_size_params :=
  { num_cols := 3, n_items := 2 }

/-- Concrete `shmem_size_params` with column caching disabled. -/
def qUncached : shmem_size_params :=
  { num_cols := 3, n_items := 2, cols_in_shmem := false }

/-- Concrete `shmem_size_params` with zero columns and caching enabled,
at one item per thread. -/
def qZeroCols1 : shmem_size_params :=
  { num_cols := 0, n_items := 1 }

/-- `qZeroCols1` with two items per thread. -/
def qZeroCols2 : shmem_size_params :=
  { qZeroCols1 with n_items := 2 }

/-- C1: dense addressing is `base + i * tree_stride + k * node_pitch`. -/
theorem dense_storage_get_get {node_t : Type} (s : dense_storage node_t)
    (i k : Int) :
    (s.get i).get k = s.nodes_ (i * s.tree_stride_ + k * s.node_pitch_) := by
  rfl

/-- C2: sparse addressing is `nodes[trees[i] + k]`. -/
theorem sparse_storage_get_get {node_t : Type} (s : sparse_storage node_t)
    (i k : Int) :
    (s.get i).get k = s.nodes_ (s.trees_ i + k) := by
  rfl

theorem wrap32_eq_self {n : Int} (h1 : -2 ^ 31 ≤ n) (h2 : n < 2 ^ 31) :
    wrap32 n = n := by
  have e31 : (2:Int) ^ 31 = 2147483648 := by norm_num
  have e32 : (2:Int) ^ 32 = 4294967296 := by norm_num
  unfold wrap32
  rw [e31, e32] at *
  omega

theorem wrap32_wrap32_add (a b : Int) :
    wrap32 (wrap32 a + b) = wrap32 (a + b) := by
  have e31 : (2:Int) ^ 31 = 2147483648 := by norm_num
  have e32 : (2:Int) ^ 32 = 4294967296 := by norm_num
  unfold wrap32
  rw [e31, e32]
  omega

/-- C3: `tree_num_nodes` and `forest_num_nodes` are exact whenever the
mathematical results fit in a signed 32-bit `int`. -/
theorem tree_forest_num_nodes_spec (d : Nat) (t : Int) (ht : 0 ≤ t)
    (hd : (2:Int) ^ (d + 1) - 1 ≤ 2 ^ 31 - 1)
    (hf : t * ((2:Int) ^ (d + 1) - 1) ≤ 2 ^ 31 - 1) :
    tree_num_nodes d = 2 ^ (d + 1) - 1 ∧
      forest_num_nodes t d = t * (2 ^ (d + 1) - 1) := by
  have hpos : (0:Int) < 2 ^ (d + 1) := by positivity
  have htree : tree_num_nodes d = 2 ^ (d + 1) - 1 := by
    unfold tree_num_nodes
    have h : wrap32 (wrap32 (2 ^ (d + 1)) + (-1)) = wrap32 (2 ^ (d + 1) + (-1)) :=
      wrap32_wrap32_add _ _
    rw [sub_eq_add_neg, h, ← sub_eq_add_neg]
    have h31 : (0:Int) < 2 ^ 31 := by positivity
    exact wrap32_eq_self (by linarith) (by linarith)
  refine ⟨htree, ?_⟩
  unfold forest_num_nodes
  rw [htree]
  rcases eq_or_lt_of_le ht with h0 | h0
  · rw [← h0]
    simpa using wrap32_eq_self (by norm_num) (by norm_num)
  · have h1 : (1:Int) ≤ t := h0
    have hnn : (0:Int) ≤ 2 ^ (d + 1) - 1 := by linarith
    have hge : 0 ≤ t * (2 ^ (d + 1) - 1) := mul_nonneg ht hnn
    have h31 : (0:Int) < 2 ^ 31 := by positivity
    exact wrap32_eq_self (by linarith) (by linarith)

theorem tree_forest_num_nodes_spec_witness :
    tree_num_nodes 3 = 2 ^ 4 - 1 ∧ forest_num_nodes 5 3 = 5 * (2 ^ 4 - 1) :=
  tree_forest_num_nodes_spec 3 5 (by norm_num) (by norm_num) (by norm_num)

theorem wrap64_eq_self {n : Int} (h1 : 0 ≤ n) (h2 : n < 2 ^ 64) :
    wrap64 n = n :=
  Int.emod_eq_of_lt h1 h2

theorem cols_shmem_size_enabled (p : shmem_size_params)
    (hc : p.cols_in_shmem = true) :
    p.cols_shmem_size = wrap64 (4 * p.num_cols * p.n_items) := by
  unfold shmem_size_params.cols_shmem_size wrap64
  rw [hc, if_pos rfl]
  conv_rhs => rw [Int.mul_emod, Int.mul_emod 4 p.num_cols]
  simp [Int.emod_emod_of_dvd]

/-- C6: `cols_shmem_size()` is `sizeof(float) * num_cols * n_items` bytes
when column caching is enabled (whenever the counts are non-negative and
the product fits `size_t`), and 0 when it is disabled. -/
theorem cols_shmem_size_spec (p : shmem_size_params) :
    (p.cols_in_shmem = true → 0 ≤ p.num_cols → 0 ≤ p.n_items →
       4 * p.num_cols * p.n_items < 2 ^ 64 →
       p.cols_shmem_size = 4 * p.num_cols * p.n_items) ∧
    (p.cols_in_shmem = false → p.cols_shmem_size = 0) := by
  constructor
  · intro hc h1 h2 h3
    rw [cols_shmem_size_enabled p hc]
    exact wrap64_eq_self (mul_nonneg (mul_nonneg (by norm_num) h1) h2) h3
  · intro hc
    unfold shmem_size_params.cols_shmem_size
    rw [hc]
    simp

theorem cols_shmem_size_spec_witness :
    qCached.cols_shmem_size = 4 * qCached.num_cols * qCached.n_items ∧
      qUncached.cols_shmem_size = 0 :=
  ⟨(cols_shmem_size_spec qCached).1 rfl (by decide) (by decide) (by decide),
   (cols_shmem_size_spec qUncached).2 rfl⟩

/-- C7 counterexample: with column caching enabled but `num_cols = 0`, the
footprint does not strictly increase from `n_items = 1` to `n_items = 2`. -/
theorem cols_shmem_size_mono_counterexample :
    qZeroCols1.cols_in_shmem = true ∧ qZeroCols2.cols_in_shmem = true ∧
      qZeroCols1.n_items = 1 ∧
      qZeroCols2 = { qZeroCols1 with n_items := 2 } ∧
      ¬ qZeroCols1.cols_shmem_size < qZeroCols2.cols_shmem_size := by
  refine ⟨rfl, rfl, rfl, rfl, ?_⟩
  decide

/-- C7 (amended): with column caching enabled, at least one column, and no
`size_t` overflow, `cols_shmem_size()` is strictly increasing in `n_items`
over 1..4 with all other fields fixed. -/
theorem cols_shmem_size_strict_mono (p : shmem_size_params)
    (hc : p.cols_in_shmem = true) (hpos : 1 ≤ p.num_cols)
    (hbound : p.num_cols < 2 ^ 60) (i j : Int) (hi : 1 ≤ i) (hij : i < j)
    (hj : j ≤ 4) :
    ({ p with n_items := i } : shmem_size_params).cols_shmem_size <
      ({ p with n_items := j } : shmem_size_params).cols_shmem_size := by
  have hci : ({ p with n_items := i } : shmem_size_params).cols_in_shmem = true := hc
  have hcj : ({ p with n_items := j } : shmem_size_params).cols_in_shmem = true := hc
  rw [cols_shmem_size_enabled _ hci, cols_shmem_size_enabled _ hcj]
  show wrap64 (4 * p.num_cols * i) < wrap64 (4 * p.num_cols * j)
  have hi' : 0 ≤ 4 * p.num_cols * i :=
    mul_nonneg (mul_nonneg (by norm_num) (by linarith)) (by linarith)
  have hj' : 0 ≤ 4 * p.num_cols * j :=
    mul_nonneg (mul_nonneg (by norm_num) (by linarith)) (by linarith)
  have hbi : 4 * p.num_cols * i < 2 ^ 64 := by nlinarith
  have hbj : 4 * p.num_cols * j < 2 ^ 64 := by nlinarith
  rw [wrap64_eq_self hi' hbi, wrap64_eq_self hj' hbj]
  have h4 : (0:Int) < 4 * p.num_cols := by linarith
  exact mul_lt_mul_of_pos_left hij h4

theorem cols_shmem_size_strict_mono_witness :
    ({ qCached with n_items := 1 } : shmem_size_params).cols_shmem_size <
      ({ qCached with n_items := 2 } : shmem_size_params).cols_shmem_size :=
  cols_shmem_size_strict_mono qCached rfl (by decide) (by decide) 1 2
    (by decide) (by decide) (by decide)

theorem dispatch_on_n_items_ok (c : Bool) (la : leaf_algo_t)
    (q : predict_params) (h : n_items_valid q) :
    dispatch_on_n_items c la q = .ok ⟨c, la, q.n_items, q⟩ := by
  rcases h with h | h | h | h <;>
    simp [dispatch_on_n_items, dispatch_final, h]

theorem dispatch_on_n_items_err (c : Bool) (la : leaf_algo_t)
    (q : predict_params) (h : ¬ n_items_valid q) :
    dispatch_on_n_items c la q = .error "internal error: n_items > 4" := by
  unfold n_items_valid at h
  push_neg at h
  obtain ⟨h1, h2, h3, h4⟩ := h
  simp [dispatch_on_n_items, h1, h2, h3, h4]

theorem dispatch_on_leaf_algo_unary (c : Bool) (p : predict_params)
    (h : p.leaf_algo = .FLOAT_UNARY_BINARY) :
    dispatch_on_leaf_algo c p =
      dispatch_on_n_items c .FLOAT_UNARY_BINARY
        { p with blockdim_x := FIL_TPB } := by
  unfold dispatch_on_leaf_algo
  rw [h]

theorem dispatch_on_leaf_algo_grove (c : Bool) (p : predict_params)
    (h : p.leaf_algo = .GROVE_PER_CLASS) :
    dispatch_on_leaf_algo c p =
      if p.num_classes > FIL_TPB then
        dispatch_on_n_items c .GROVE_PER_CLASS_MANY_CLASSES
          { p with leaf_algo := .GROVE_PER_CLASS_MANY_CLASSES,
                   blockdim_x := FIL_TPB }
      else
        dispatch_on_n_items c .GROVE_PER_CLASS_FEW_CLASSES
          { p with leaf_algo := .GROVE_PER_CLASS_FEW_CLASSES,
                   blockdim_x := FIL_TPB - FIL_TPB % p.num_classes } := by
  unfold dispatch_on_leaf_algo
  rw [h]

theorem dispatch_on_leaf_algo_cat (c : Bool) (p : predict_params)
    (h : p.leaf_algo = .CATEGORICAL_LEAF) :
    dispatch_on_leaf_algo c p =
      dispatch_on_n_items c .CATEGORICAL_LEAF
        { p with blockdim_x := FIL_TPB } := by
  unfold dispatch_on_leaf_algo
  rw [h]

theorem dispatch_on_leaf_algo_few_input (c : Bool) (p : predict_params)
    (h : p.leaf_algo = .GROVE_PER_CLASS_FEW_CLASSES) :
    dispatch_on_leaf_algo c p = .error "internal error: invalid leaf_algo" := by
  unfold dispatch_on_leaf_algo
  rw [h]

theorem dispatch_on_leaf_algo_many_input (c : Bool) (p : predict_params)
    (h : p.leaf_algo = .GROVE_PER_CLASS_MANY_CLASSES) :
    dispatch_on_leaf_algo c p = .error "internal error: invalid leaf_algo" := by
  unfold dispatch_on_leaf_algo
  rw [h]

theorem dispatch_on_cols_true (p : predict_params)
    (h : p.cols_in_shmem = true) :
    dispatch_on_FIL_template_params p = dispatch_on_leaf_algo true p := by
  unfold dispatch_on_FIL_template_params dispatch_on_cols_in_shmem
  rw [h]
  simp

theorem dispatch_on_cols_false (p : predict_params)
    (h : p.cols_in_shmem = false) :
    dispatch_on_FIL_template_params p = dispatch_on_leaf_algo false p := by
  unfold dispatch_on_FIL_template_params dispatch_on_cols_in_shmem
  rw [h]
  simp

theorem dispatch_tail (c : Bool) (la : leaf_algo_t) (q : predict_params)
    (inv : Invocation) (hok : dispatch_on_n_items c la q = .ok inv) :
    n_items_valid q ∧ inv = ⟨c, la, q.n_items, q⟩ := by
  by_cases hv : n_items_valid q
  · rw [dispatch_on_n_items_ok c la q hv] at hok
    exact ⟨hv, (Except.ok.inj hok).symm⟩
  · rw [dispatch_on_n_items_err c la q hv] at hok
    exact absurd hok (by simp)

theorem dispatch_leaf_cases (c : Bool) (p : predict_params) (inv : Invocation)
    (hok : dispatch_on_leaf_algo c p = .ok inv) :
    inv.cols_in_shmem = c ∧ inv.n_items = p.n_items ∧ n_items_valid p ∧
      ((p.leaf_algo = .FLOAT_UNARY_BINARY ∧
          inv.leaf_algo = .FLOAT_UNARY_BINARY ∧
          inv.params = { p with blockdim_x := FIL_TPB }) ∨
       (p.leaf_algo = .GROVE_PER_CLASS ∧ FIL_TPB < p.num_classes ∧
          inv.leaf_algo = .GROVE_PER_CLASS_MANY_CLASSES ∧
          inv.params = { p with leaf_algo := .GROVE_PER_CLASS_MANY_CLASSES,
                                blockdim_x := FIL_TPB }) ∨
       (p.leaf_algo = .GROVE_PER_CLASS ∧ p.num_classes ≤ FIL_TPB ∧
          inv.leaf_algo = .GROVE_PER_CLASS_FEW_CLASSES ∧
          inv.params = { p with leaf_algo := .GROVE_PER_CLASS_FEW_CLASSES,
                                blockdim_x := FIL_TPB - FIL_TPB % p.num_classes }) ∨
       (p.leaf_algo = .CATEGORICAL_LEAF ∧
          inv.leaf_algo = .CATEGORICAL_LEAF ∧
          inv.params = { p with blockdim_x := FIL_TPB })) := by
  obtain ⟨la, hla⟩ : ∃ la, p.leaf_algo = la := ⟨_, rfl⟩
  cases la
  case FLOAT_UNARY_BINARY =>
    rw [dispatch_on_leaf_algo_unary c p hla] at hok
    obtain ⟨hv, hinv⟩ := dispatch_tail _ _ _ _ hok
    subst hinv
    exact ⟨rfl, rfl, hv, Or.inl ⟨hla, rfl, rfl⟩⟩
  case GROVE_PER_CLASS =>
    rw [dispatch_on_leaf_algo_grove c p hla] at hok
    by_cases hn : p.num_classes > FIL_TPB
    · rw [if_pos hn] at hok
      obtain ⟨hv, hinv⟩ := dispatch_tail _ _ _ _ hok
      subst hinv
      exact ⟨rfl, rfl, hv, Or.inr (Or.inl ⟨hla, hn, rfl, rfl⟩)⟩
    · rw [if_neg hn] at hok
      obtain ⟨hv, hinv⟩ := dispatch_tail _ _ _ _ hok
      subst hinv
      exact ⟨rfl, rfl, hv, Or.inr (Or.inr (Or.inl ⟨hla, le_of_not_lt hn, rfl, rfl⟩))⟩
  case CATEGORICAL_LEAF =>
    rw [dispatch_on_leaf_algo_cat c p hla] at hok
    obtain ⟨hv, hinv⟩ := dispatch_tail _ _ _ _ hok
    subst hinv
    exact ⟨rfl, rfl, hv, Or.inr (Or.inr (Or.inr ⟨hla, rfl, rfl⟩))⟩
  case GROVE_PER_CLASS_FEW_CLASSES =>
    rw [dispatch_on_leaf_algo_few_input c p hla] at hok
    exact absurd hok (by simp)
  case GROVE_PER_CLASS_MANY_CLASSES =>
    rw [dispatch_on_leaf_algo_many_input c p hla] at hok
    exact absurd hok (by simp)

theorem dispatch_ok_cases (p : predict_params) (inv : Invocation)
    (hok : dispatch_on_FIL_template_params p = .ok inv) :
    inv.cols_in_shmem = p.cols_in_shmem ∧ inv.n_items = p.n_items ∧
      n_items_valid p ∧
      ((p.leaf_algo = .FLOAT_UNARY_BINARY ∧
          inv.leaf_algo = .FLOAT_UNARY_BINARY ∧
          inv.params = { p with blockdim_x := FIL_TPB }) ∨
       (p.leaf_algo = .GROVE_PER_CLASS ∧ FIL_TPB < p.num_classes ∧
          inv.leaf_algo = .GROVE_PER_CLASS_MANY_CLASSES ∧
          inv.params = { p with leaf_algo := .GROVE_PER_CLASS_MANY_CLASSES,
                                blockdim_x := FIL_TPB }) ∨
       (p.leaf_algo = .GROVE_PER_CLASS ∧ p.num_classes ≤ FIL_TPB ∧
          inv.leaf_algo = .GROVE_PER_CLASS_FEW_CLASSES ∧
          inv.params = { p with leaf_algo := .GROVE_PER_CLASS_FEW_CLASSES,
                                blockdim_x := FIL_TPB - FIL_TPB % p.num_classes }) ∨
       (p.leaf_algo = .CATEGORICAL_LEAF ∧
          inv.leaf_algo = .CATEGORICAL_LEAF ∧
          inv.params = { p with blockdim_x := FIL_TPB })) := by
  obtain ⟨b, hc⟩ : ∃ b, p.cols_in_shmem = b := ⟨_, rfl⟩
  cases b
  · rw [dispatch_on_cols_false p hc] at hok
    obtain ⟨h1, h2, h3, h4⟩ := dispatch_leaf_cases false p inv hok
    exact ⟨by rw [h1, hc], h2, h3, h4⟩
  · rw [dispatch_on_cols_true p hc] at hok
    obtain ⟨h1, h2, h3, h4⟩ := dispatch_leaf_cases true p inv hok
    exact ⟨by rw [h1, hc], h2, h3, h4⟩

/-- C4: under `GROVE_PER_CLASS`, the dispatcher resolves to the
many-classes grove variant exactly when `num_classes > FIL_TPB` and to the
few-classes variant otherwise — a function of `num_classes` and `FIL_TPB`
alone. -/
theorem grove_per_class_split (p : predict_params) (inv : Invocation)
    (hga : p.leaf_algo = .GROVE_PER_CLASS)
    (hok : dispatch_on_FIL_template_params p = .ok inv) :
    (inv.leaf_algo = .GROVE_PER_CLASS_MANY_CLASSES ↔ FIL_TPB < p.num_classes) ∧
      (inv.leaf_algo = .GROVE_PER_CLASS_FEW_CLASSES ↔ p.num_classes ≤ FIL_TPB) := by
  obtain ⟨-, -, -, hcase⟩ := dispatch_ok_cases p inv hok
  rcases hcase with ⟨h, -⟩ | ⟨-, hn, hla, -⟩ | ⟨-, hn, hla, -⟩ | ⟨h, -⟩
  · rw [hga] at h; exact absurd h (by simp)
  · constructor
    · exact ⟨fun _ => hn, fun _ => hla⟩
    · constructor
      · intro h; rw [hla] at h; exact absurd h (by simp)
      · intro h; exact absurd hn (not_lt.mpr h)
  · constructor
    · constructor
      · intro h; rw [hla] at h; exact absurd h (by simp)
      · intro h; exact absurd hn (not_le.mpr h)
    · exact ⟨fun _ => hn, fun _ => hla⟩
  · rw [hga] at h; exact absurd h (by simp)

theorem grove_per_class_split_witness :
    (invGroveMany.leaf_algo = .GROVE_PER_CLASS_MANY_CLASSES ↔
        FIL_TPB < pGroveMany.num_classes) ∧
      (invGroveMany.leaf_algo = .GROVE_PER_CLASS_FEW_CLASSES ↔
        pGroveMany.num_classes ≤ FIL_TPB) :=
  grove_per_class_split pGroveMany invGroveMany rfl rfl

/-- C5: the kernel is launched with `blockdim_x = FIL_TPB` for the unary,
categorical and many-classes-grove algorithms, and for the few-classes
grove (`1 ≤ num_classes ≤ FIL_TPB`) with
`blockdim_x = FIL_TPB - FIL_TPB % num_classes`, the largest multiple of
`num_classes` not exceeding `FIL_TPB`. -/
theorem blockdim_x_spec (p : predict_params) (inv : Invocation)
    (hok : dispatch_on_FIL_template_params p = .ok inv) :
    ((p.leaf_algo = .FLOAT_UNARY_BINARY ∨ p.leaf_algo = .CATEGORICAL_LEAF) →
       inv.params.blockdim_x = FIL_TPB) ∧
    (p.leaf_algo = .GROVE_PER_CLASS → FIL_TPB < p.num_classes →
       inv.params.blockdim_x = FIL_TPB) ∧
    (p.leaf_algo = .GROVE_PER_CLASS → 1 ≤ p.num_classes →
       p.num_classes ≤ FIL_TPB →
       inv.params.blockdim_x = FIL_TPB - FIL_TPB % p.num_classes ∧
         p.num_classes ∣ inv.params.blockdim_x ∧
         inv.params.blockdim_x ≤ FIL_TPB ∧
         FIL_TPB < inv.params.blockdim_x + p.num_classes) := by
  obtain ⟨-, -, -, hcase⟩ := dispatch_ok_cases p inv hok
  rcases hcase with ⟨hla, -, hp⟩ | ⟨hla, hn, -, hp⟩ | ⟨hla, hn, -, hp⟩ | ⟨hla, -, hp⟩
  · refine ⟨fun _ => by rw [hp], ?_, ?_⟩
    · intro h; rw [hla] at h; exact absurd h (by simp)
    · intro h; rw [hla] at h; exact absurd h (by simp)
  · refine ⟨?_, fun _ _ => by rw [hp], ?_⟩
    · intro h
      rcases h with h | h <;> (rw [hla] at h; exact absurd h (by simp))
    · intro _ _ hle
      exact absurd hn (not_lt.mpr hle)
  · refine ⟨?_, ?_, ?_⟩
    · intro h
      rcases h with h | h <;> (rw [hla] at h; exact absurd h (by simp))
    · intro _ hlt
      exact absurd hlt (not_lt.mpr hn)
    · intro _ h1 _
      have hb : inv.params.blockdim_x = FIL_TPB - FIL_TPB % p.num_classes := by
        rw [hp]
      have hne : p.num_classes ≠ 0 := by omega
      have hpos : (0:Int) < p.num_classes := by omega
      have hm0 : 0 ≤ FIL_TPB % p.num_classes := Int.emod_nonneg _ hne
      have hmlt : FIL_TPB % p.num_classes < p.num_classes :=
        Int.emod_lt_of_pos _ hpos
      refine ⟨hb, ?_, by rw [hb]; linarith, by rw [hb]; linarith⟩
      refine ⟨FIL_TPB / p.num_classes, ?_⟩
      have hed := Int.emod_add_ediv FIL_TPB p.num_classes
      rw [hb]
      linarith
  · refine ⟨fun _ => by rw [hp], ?_, ?_⟩
    · intro h; rw [hla] at h; exact absurd h (by simp)
    · intro h; rw [hla] at h; exact absurd h (by simp)

theorem blockdim_x_spec_witness :
    invGroveFew.params.blockdim_x = FIL_TPB - FIL_TPB % pGroveFew.num_classes ∧
      pGroveFew.num_classes ∣ invGroveFew.params.blockdim_x ∧
      invGroveFew.params.blockdim_x ≤ FIL_TPB ∧
      FIL_TPB < invGroveFew.params.blockdim_x + pGroveFew.num_classes :=
  (blockdim_x_spec pGroveFew invGroveFew rfl).2.2 rfl (by decide) (by decide)

theorem dispatch_leaf_ok_of_valid (c : Bool) (p : predict_params)
    (hr : leaf_algo_recognized p) (hv : n_items_valid p) :
    ∃ inv, dispatch_on_leaf_algo c p = .ok inv := by
  rcases hr with h | h | h
  · rw [dispatch_on_leaf_algo_unary c p h]
    exact ⟨_, dispatch_on_n_items_ok _ _ _ hv⟩
  · rw [dispatch_on_leaf_algo_grove c p h]
    by_cases hn : p.num_classes > FIL_TPB
    · rw [if_pos hn]
      exact ⟨_, dispatch_on_n_items_ok _ _ _ hv⟩
    · rw [if_neg hn]
      exact ⟨_, dispatch_on_n_items_ok _ _ _ hv⟩
  · rw [dispatch_on_leaf_algo_cat c p h]
    exact ⟨_, dispatch_on_n_items_ok _ _ _ hv⟩

theorem dispatch_ok_of_valid (p : predict_params)
    (hr : leaf_algo_recognized p) (hv : n_items_valid p) :
    ∃ inv, dispatch_on_FIL_template_params p = .ok inv := by
  obtain ⟨b, hc⟩ : ∃ b, p.cols_in_shmem = b := ⟨_, rfl⟩
  cases b
  · rw [dispatch_on_cols_false p hc]
    exact dispatch_leaf_ok_of_valid false p hr hv
  · rw [dispatch_on_cols_true p hc]
    exact dispatch_leaf_ok_of_valid true p hr hv

theorem dispatch_leaf_err_cases (c : Bool) (p : predict_params)
    (h : ¬ leaf_algo_recognized p ∨ ¬ n_items_valid p) :
    ∃ e, dispatch_on_leaf_algo c p = .error e := by
  obtain ⟨la, hla⟩ : ∃ la, p.leaf_algo = la := ⟨_, rfl⟩
  rcases h with h | h
  · unfold leaf_algo_recognized at h
    push_neg at h
    obtain ⟨h1, h2, h3⟩ := h
    cases la
    case FLOAT_UNARY_BINARY => exact absurd hla h1
    case GROVE_PER_CLASS => exact absurd hla h2
    case CATEGORICAL_LEAF => exact absurd hla h3
    case GROVE_PER_CLASS_FEW_CLASSES =>
      exact ⟨_, dispatch_on_leaf_algo_few_input c p hla⟩
    case GROVE_PER_CLASS_MANY_CLASSES =>
      exact ⟨_, dispatch_on_leaf_algo_many_input c p hla⟩
  · cases la
    case FLOAT_UNARY_BINARY =>
      rw [dispatch_on_leaf_algo_unary c p hla]
      exact ⟨_, dispatch_on_n_items_err _ _ _ h⟩
    case GROVE_PER_CLASS =>
      rw [dispatch_on_leaf_algo_grove c p hla]
      by_cases hn : p.num_classes > FIL_TPB
      · rw [if_pos hn]
        exact ⟨_, dispatch_on_n_items_err _ _ _ h⟩
      · rw [if_neg hn]
        exact ⟨_, dispatch_on_n_items_err _ _ _ h⟩
    case CATEGORICAL_LEAF =>
      rw [dispatch_on_leaf_algo_cat c p hla]
      exact ⟨_, dispatch_on_n_items_err _ _ _ h⟩
    case GROVE_PER_CLASS_FEW_CLASSES =>
      exact ⟨_, dispatch_on_leaf_algo_few_input c p hla⟩
    case GROVE_PER_CLASS_MANY_CLASSES =>
      exact ⟨_, dispatch_on_leaf_algo_many_input c p hla⟩

/-- C8: the dispatch chain hits a fatal assertion exactly when `leaf_algo`
is not one of the three recognized values or `n_items` is outside 1..4;
for every recognized plan it invokes exactly one compiled specialization. -/
theorem dispatch_total_spec (p : predict_params) :
    ((∃ e, dispatch_on_FIL_template_params p = .error e) ↔
       ¬ leaf_algo_recognized p ∨ ¬ n_items_valid p) ∧
    (leaf_algo_recognized p → n_items_valid p →
       ∃! inv, dispatch_on_FIL_template_params p = .ok inv) := by
  constructor
  · constructor
    · rintro ⟨e, he⟩
      by_contra hcon
      push_neg at hcon
      obtain ⟨inv, hinv⟩ := dispatch_ok_of_valid p hcon.1 hcon.2
      rw [he] at hinv
      exact absurd hinv (by simp)
    · intro h
      obtain ⟨b, hc⟩ : ∃ b, p.cols_in_shmem = b := ⟨_, rfl⟩
      cases b
      · rw [dispatch_on_cols_false p hc]
        exact dispatch_leaf_err_cases false p h
      · rw [dispatch_on_cols_true p hc]
        exact dispatch_leaf_err_cases true p h
  · intro hr hv
    obtain ⟨inv, hinv⟩ := dispatch_ok_of_valid p hr hv
    refine ⟨inv, hinv, fun y hy => ?_⟩
    rw [hinv] at hy
    exact (Except.ok.inj hy).symm

theorem dispatch_total_spec_witness :
    leaf_algo_recognized pUnary ∧ n_items_valid pUnary ∧
      ∃! inv, dispatch_on_FIL_template_params pUnary = .ok inv :=
  ⟨by decide, by decide, (dispatch_total_spec pUnary).2 (by decide) (by decide)⟩

/-- C9: `predict_params` is passed by value through the dispatch chain, so
the caller's object is unchanged by the call even though the copy delivered
to the kernel had `leaf_algo` rewritten away from `GROVE_PER_CLASS`. -/
theorem dispatch_by_value_frame (p : predict_params) (inv : Invocation)
    (hga : p.leaf_algo = .GROVE_PER_CLASS)
    (hok : (dispatch_on_FIL_template_params_call p).1 = .ok inv) :
    (dispatch_on_FIL_template_params_call p).2 = p ∧
      inv.params.leaf_algo ≠ p.leaf_algo ∧
      (inv.params.leaf_algo = .GROVE_PER_CLASS_FEW_CLASSES ∨
        inv.params.leaf_algo = .GROVE_PER_CLASS_MANY_CLASSES) := by
  obtain ⟨-, -, -, hcase⟩ := dispatch_ok_cases p inv hok
  rcases hcase with ⟨h, -⟩ | ⟨-, -, -, hp⟩ | ⟨-, -, -, hp⟩ | ⟨h, -⟩
  · rw [hga] at h; exact absurd h (by simp)
  · refine ⟨rfl, ?_, Or.inr (by rw [hp])⟩
    rw [hga, hp]
    simp
  · refine ⟨rfl, ?_, Or.inl (by rw [hp])⟩
    rw [hga, hp]
    simp
  · rw [hga] at h; exact absurd h (by simp)

theorem dispatch_by_value_frame_witness :
    (dispatch_on_FIL_template_params_call pGroveFew).2 = pGroveFew ∧
      invGroveFew.params.leaf_algo ≠ pGroveFew.leaf_algo ∧
      (invGroveFew.params.leaf_algo = .GROVE_PER_CLASS_FEW_CLASSES ∨
        invGroveFew.params.leaf_algo = .GROVE_PER_CLASS_MANY_CLASSES) :=
  dispatch_by_value_frame pGroveFew invGroveFew rfl rfl

/-- C10: every params object delivered to a kernel has a resolved
`leaf_algo` (never the unresolved `GROVE_PER_CLASS`) and, when
`num_classes ≥ 1`, a `blockdim_x` in `1..FIL_TPB`. -/
theorem kernel_params_invariant (p : predict_params) (inv : Invocation)
    (hnc : 1 ≤ p.num_classes)
    (hok : dispatch_on_FIL_template_params p = .ok inv) :
    (inv.params.leaf_algo = .FLOAT_UNARY_BINARY ∨
       inv.params.leaf_algo = .GROVE_PER_CLASS_FEW_CLASSES ∨
       inv.params.leaf_algo = .GROVE_PER_CLASS_MANY_CLASSES ∨
       inv.params.leaf_algo = .CATEGORICAL_LEAF) ∧
      inv.params.leaf_algo ≠ .GROVE_PER_CLASS ∧
      1 ≤ inv.params.blockdim_x ∧ inv.params.blockdim_x ≤ FIL_TPB := by
  have htpb : (1:Int) ≤ FIL_TPB := by decide
  obtain ⟨-, -, -, hcase⟩ := dispatch_ok_cases p inv hok
  rcases hcase with ⟨hla, -, hp⟩ | ⟨-, -, -, hp⟩ | ⟨-, hn, -, hp⟩ | ⟨hla, -, hp⟩
  · have hl : inv.params.leaf_algo = .FLOAT_UNARY_BINARY := by rw [hp]; exact hla
    refine ⟨Or.inl hl, by rw [hl]; simp, by rw [hp]; exact htpb, by rw [hp]⟩
  · have hl : inv.params.leaf_algo = .GROVE_PER_CLASS_MANY_CLASSES := by rw [hp]
    refine ⟨Or.inr (Or.inr (Or.inl hl)), by rw [hl]; simp,
      by rw [hp]; exact htpb, by rw [hp]⟩
  · have hl : inv.params.leaf_algo = .GROVE_PER_CLASS_FEW_CLASSES := by rw [hp]
    have hb : inv.params.blockdim_x = FIL_TPB - FIL_TPB % p.num_classes := by
      rw [hp]
    have hne : p.num_classes ≠ 0 := by omega
    have hpos : (0:Int) < p.num_classes := by omega
    have hm0 : 0 ≤ FIL_TPB % p.num_classes := Int.emod_nonneg _ hne
    have hmlt : FIL_TPB % p.num_classes < p.num_classes :=
      Int.emod_lt_of_pos _ hpos
    refine ⟨Or.inr (Or.inl hl), by rw [hl]; simp,
      by rw [hb]; linarith, by rw [hb]; linarith⟩
  · have hl : inv.params.leaf_algo = .CATEGORICAL_LEAF := by rw [hp]; exact hla
    refine ⟨Or.inr (Or.inr (Or.inr hl)), by rw [hl]; simp,
      by rw [hp]; exact htpb, by rw [hp]⟩

theorem kernel_params_invariant_witness :
    (invGroveMany.params.leaf_algo = .FLOAT_UNARY_BINARY ∨
       invGroveMany.params.leaf_algo = .GROVE_PER_CLASS_FEW_CLASSES ∨
       invGroveMany.params.leaf_algo = .GROVE_PER_CLASS_MANY_CLASSES ∨
       invGroveMany.params.leaf_algo = .CATEGORICAL_LEAF) ∧
      invGroveMany.params.leaf_algo ≠ .GROVE_PER_CLASS ∧
      1 ≤ invGroveMany.params.blockdim_x ∧
      invGroveMany.params.blockdim_x ≤ FIL_TPB :=
  kernel_params_invariant pGroveMany invGroveMany (by decide) rfl
